import Mathlib

/-!
Verification of the fansMedalHelper core against its specification.

The Python sources under src/ are shallowly embedded as Lean functions:
the retrying call wrapper (src/src/api.py, `retry`), the medal filter and
classifier (src/src/services.py, `MedalService`), the statistics report
(src/src/stats_service.py, `StatsService`), the coin allocation loop
(src/src/services.py, `CoinService`), the danmaku loop
(src/src/services.py, `DanmakuService` and src/src/api.py, `sendDanmaku`),
the per-account session lifecycle (src/src/user.py, `BiliUser`) and the
uid-list parsing (src/src/user.py, `_parse_uid_lists`).
Remote interaction is determinized: each call site consumes a script of
outcomes supplied as an explicit argument.
-/

namespace FansMedal

/-- Error code for an invalid token, src/src/constants.py `ErrorCodes.TOKEN_ERROR`. -/
def TOKEN_ERROR : Int := 1011040

/-- Error code for rate limiting, src/src/constants.py `ErrorCodes.RATE_LIMIT`. -/
def RATE_LIMIT : Int := 10030

/-- Error code for a transient server error, src/src/constants.py `ErrorCodes.SERVER_ERROR`. -/
def SERVER_ERROR : Int := -504

/-- Exceptions observable by the retry wrapper: `BiliApiError` carries the remote
status code and message; every other exception is modelled as `generic`. -/
inductive BiliError where
| apiError (code : Int) (msg : String)
| generic (msg : String)
deriving DecidableEq

/-- Sleep calls performed by the retry wrapper: the fixed 10 second rate-limit
cooldown, and the between-attempts pause of `interval` seconds. -/
inductive SleepEvent where
| cooldown10
| pause (secs : Nat)
deriving DecidableEq

/-- Result of running the retry wrapper against a finite script of attempt
outcomes.  `outOfTrace` is a model artifact marking a script shorter than the
execution it is meant to drive. -/
inductive RetryOutcome (α : Type) where
| returned (v : α)
| raised (e : BiliError)
| outOfTrace
deriving DecidableEq

/-- Whether the wrapper re-raises the error at once (src/src/api.py lines 32-40):
a `BiliApiError` whose code is `TOKEN_ERROR`, or any code other than
`RATE_LIMIT` and `SERVER_ERROR`, is fatal; rate-limit and server errors, and
non-`BiliApiError` exceptions, fall through to the bounded retry. -/
def errFatal : BiliError → Bool
| .apiError code _ =>
  if code = TOKEN_ERROR then true
  else if code = RATE_LIMIT then false
  else if code = SERVER_ERROR then false
  else true
| .generic _ => false

/-- Sleeps performed inside the error dispatch itself: `asyncio.sleep(10)` on a
rate-limit error (src/src/api.py line 36), nothing otherwise. -/
def errSleeps : BiliError → List SleepEvent
| .apiError code _ => if code = RATE_LIMIT then [SleepEvent.cooldown10] else []
| .generic _ => []

/-- The retry loop of the decorator in src/src/api.py lines 18-54, driven by a
script of attempt outcomes.  `count` is the wrapper's failure counter; a fatal
error is re-raised at once, otherwise the failure is counted, the rate-limit
cooldown (if any) is slept, the budget `tries` is checked, and on a remaining
budget the wrapper sleeps `ivl` seconds and runs the next attempt. -/
def retryLoop {α : Type} (tries ivl : Nat) : Nat → List (Except BiliError α) → RetryOutcome α × List SleepEvent
| _, [] => (RetryOutcome.outOfTrace, [])
| _, Except.ok v :: _ => (RetryOutcome.returned v, [])
| count, Except.error e :: rest =>
  if errFatal e then (RetryOutcome.raised e, [])
  else
    let pre := errSleeps e
    if tries < count + 1 then (RetryOutcome.raised e, pre)
    else
      let r := retryLoop tries ivl (count + 1) rest
      (r.1, pre ++ SleepEvent.pause ivl :: r.2)

/-- One decorated call: the retry loop started with failure counter 0
(default arguments `tries = 3`, `interval = 1` in the source). -/
def retryRun {α : Type} (tries ivl : Nat) (attempts : List (Except BiliError α)) : RetryOutcome α × List SleepEvent :=
  retryLoop tries ivl 0 attempts

/-- Recognizer for the rate-limit cooldown sleep. -/
def isCooldown : SleepEvent → Bool
| SleepEvent.cooldown10 => true
| _ => false

/-- Number of 10 second cooldown sleeps in a sleep trace. -/
def countCooldowns (l : List SleepEvent) : Nat := (l.filter isCooldown).length

theorem errFatal_rate (m : String) : errFatal (BiliError.apiError RATE_LIMIT m) = false := rfl

theorem errSleeps_rate (m : String) :
    errSleeps (BiliError.apiError RATE_LIMIT m) = [SleepEvent.cooldown10] := rfl

theorem retryLoop_rateLimit_aux {α : Type} (tries ivl : Nat) (v : α)
    (rest : List (Except BiliError α)) :
    ∀ (msgs : List String) (count : Nat), count + msgs.length ≤ tries →
      retryLoop tries ivl count
          (msgs.map (fun m => Except.error (BiliError.apiError RATE_LIMIT m)) ++ Except.ok v :: rest)
        = (RetryOutcome.returned v,
           List.flatten (List.replicate msgs.length [SleepEvent.cooldown10, SleepEvent.pause ivl])) := by
  intro msgs
  induction msgs with
  | nil => intro count _; rfl
  | cons m ms ih =>
    intro count hle
    have hnf : ¬ tries < count + 1 := by
      simp only [List.length_cons] at hle
      omega
    have hrec := ih (count + 1) (by simp only [List.length_cons] at hle; omega)
    simp only [List.map_cons, List.cons_append, retryLoop, errFatal_rate, errSleeps_rate,
      Bool.false_eq_true, if_false, hnf, List.length_cons, List.replicate_succ,
      List.flatten_cons, List.append_eq, hrec]
    rfl

theorem retryLoop_exhaust_aux {α : Type} (tries ivl : Nat) :
    ∀ (es : List BiliError) (elast : BiliError) (count : Nat),
      (∀ e ∈ es, errFatal e = false) → errFatal elast = false →
      count + es.length = tries →
      (retryLoop tries ivl count
          (((es ++ [elast]).map Except.error : List (Except BiliError α)))).1
        = RetryOutcome.raised elast := by
  intro es
  induction es with
  | nil =>
    intro elast count _ hlast hcount
    simp only [List.nil_append, List.map_cons, List.map_nil, retryLoop, hlast,
      Bool.false_eq_true, if_false]
    have : tries < count + 1 := by simp only [List.length_nil] at hcount; omega
    simp [this]
  | cons e es ih =>
    intro elast count hall hlast hcount
    have he : errFatal e = false := hall e (List.mem_cons_self e es)
    have hnf : ¬ tries < count + 1 := by
      simp only [List.length_cons] at hcount
      omega
    have hrec := ih elast (count + 1)
      (fun x hx => hall x (List.mem_cons_of_mem e hx)) hlast
      (by simp only [List.length_cons] at hcount; omega)
    simp only [List.cons_append, List.map_cons, retryLoop, he, Bool.false_eq_true, if_false, hnf]
    exact hrec

/-- C1: a remote call whose response carries the authentication-invalid error
code (`TOKEN_ERROR`, 1011040) is re-raised by the retry wrapper unmodified on
the first attempt, with no retry (the rest of the attempt script is never
consumed) and no sleep of any kind, whatever the attempt budget `tries`. -/
theorem C1_token_error_raised_immediately (α : Type) (tries ivl : Nat) (msg : String)
    (rest : List (Except BiliError α)) :
    retryRun tries ivl (Except.error (BiliError.apiError TOKEN_ERROR msg) :: rest)
      = (RetryOutcome.raised (BiliError.apiError TOKEN_ERROR msg), []) := rfl

theorem countCooldowns_flatten_replicate (ivl : Nat) :
    ∀ k : Nat,
      countCooldowns (List.flatten (List.replicate k [SleepEvent.cooldown10, SleepEvent.pause ivl])) = k := by
  intro k
  induction k with
  | zero => rfl
  | succ n ih =>
    simp only [List.replicate_succ, List.flatten_cons]
    simp only [countCooldowns, List.filter_append] at ih ⊢
    simp [ih, isCooldown]

/-- C2: a call whose attempts fail with the rate-limited code exactly `k` times
(`k` at most the retry budget `tries`) and then succeed returns the success
result and sleeps the 10 second cooldown exactly `k` times; and a call whose
every attempt fails with a retryable (non-fatal) error re-raises the last
error after `tries` retries beyond the first attempt. -/
theorem C2_rate_limit_cooldowns_and_exhaustion :
    (∀ (α : Type) (tries ivl : Nat) (msgs : List String) (v : α)
       (rest : List (Except BiliError α)),
       msgs.length ≤ tries →
       (retryRun tries ivl
           (msgs.map (fun m => Except.error (BiliError.apiError RATE_LIMIT m)) ++ Except.ok v :: rest)).1
         = RetryOutcome.returned v
       ∧ countCooldowns (retryRun tries ivl
           (msgs.map (fun m => Except.error (BiliError.apiError RATE_LIMIT m)) ++ Except.ok v :: rest)).2
         = msgs.length)
    ∧ (∀ (α : Type) (tries ivl : Nat) (es : List BiliError) (elast : BiliError),
       (∀ e ∈ es, errFatal e = false) → errFatal elast = false →
       es.length = tries →
       (retryRun tries ivl (((es ++ [elast]).map Except.error : List (Except BiliError α)))).1
         = RetryOutcome.raised elast) := by
  constructor
  · intro α tries ivl msgs v rest hk
    have h := retryLoop_rateLimit_aux tries ivl v rest msgs 0 (by omega)
    unfold retryRun
    rw [h]
    exact ⟨rfl, countCooldowns_flatten_replicate ivl msgs.length⟩
  · intro α tries ivl es elast hall hlast hlen
    exact retryLoop_exhaust_aux tries ivl es elast 0 hall hlast (by omega)

/-- Witness for C2 at concrete inputs: two rate-limited failures then success
with budget 3 returns the value and sleeps the cooldown twice, and four
all-retryable failures with budget 3 re-raise the fourth error. -/
theorem C2_rate_limit_cooldowns_and_exhaustion_witness :
    ((retryRun 3 1
        ((["a", "b"].map (fun m => Except.error (BiliError.apiError RATE_LIMIT m)))
          ++ Except.ok (7 : Nat) :: [])).1 = RetryOutcome.returned 7
     ∧ countCooldowns (retryRun 3 1
        ((["a", "b"].map (fun m => Except.error (BiliError.apiError RATE_LIMIT m)))
          ++ Except.ok (7 : Nat) :: [])).2 = 2)
    ∧ (retryRun 3 1
        (([BiliError.apiError SERVER_ERROR "s1", BiliError.generic "g",
           BiliError.apiError RATE_LIMIT "r"] ++ [BiliError.apiError SERVER_ERROR "s4"]).map
          Except.error : List (Except BiliError Nat))).1
        = RetryOutcome.raised (BiliError.apiError SERVER_ERROR "s4") := by
  constructor
  · exact C2_rate_limit_cooldowns_and_exhaustion.1 Nat 3 1 ["a", "b"] 7 [] (by decide)
  · exact C2_rate_limit_cooldowns_and_exhaustion.2 Nat 3 1
      [BiliError.apiError SERVER_ERROR "s1", BiliError.generic "g",
       BiliError.apiError RATE_LIMIT "r"] (BiliError.apiError SERVER_ERROR "s4")
      (by decide) (by decide) (by decide)

/-- Medal payload of one fan-medal item, the `medal` sub-dict of the panel
listing consumed by src/src/services.py. -/
structure MedalData where
  target_id : Int
  is_lighted : Nat
  level : Nat
  today_feed : Nat
  medal_id : Nat
deriving DecidableEq

/-- Room payload of one fan-medal item, the `room_info` sub-dict. -/
structure RoomData where
  room_id : Nat
  living_status : Nat
deriving DecidableEq

/-- Anchor payload of one fan-medal item, the `anchor_info` sub-dict. -/
structure AnchorData where
  nick_name : String
deriving DecidableEq

/-- One item of the paginated fan-medal listing. -/
structure MedalItem where
  medal : MedalData
  room_info : RoomData
  anchor_info : AnchorData
deriving DecidableEq

/-- Allow/deny filter of `MedalService.get_all_medals`
(src/src/services.py lines 66-98), applied to the already-concatenated
paginated listing: items with `room_id == 0` are dropped; with the allow-list
equal to the sentinel `[0]` the deny-list drops its owners and everything else
is kept; otherwise only items whose owner is in the allow-list are kept. -/
def get_all_medals (white_list banned_list : List Int) : List MedalItem → List MedalItem
| [] => []
| m :: rest =>
  if m.room_info.room_id = 0 then get_all_medals white_list banned_list rest
  else if white_list = [0] then
    if m.medal.target_id ∈ banned_list then get_all_medals white_list banned_list rest
    else m :: get_all_medals white_list banned_list rest
  else if m.medal.target_id ∈ white_list then m :: get_all_medals white_list banned_list rest
  else get_all_medals white_list banned_list rest

/-- The four work buckets built by `MedalService.classify_medals`. -/
structure Classified where
  need_do : List MedalItem
  others : List MedalItem
  living : List MedalItem
  no_living : List MedalItem
deriving DecidableEq

/-- One step of the classification loop body
(src/src/services.py lines 130-149): an unlit medal goes to `living` or
`no_living` by the room's `living_status`; independently a medal with
`today_feed < 30` goes to `need_do`, otherwise to `others`. -/
def classifyStep (c : Classified) (m : MedalItem) : Classified :=
  let c1 :=
    if m.medal.is_lighted = 0 then
      if m.room_info.living_status = 1 then { c with living := c.living ++ [m] }
      else { c with no_living := c.no_living ++ [m] }
    else c
  if m.medal.today_feed < 30 then { c1 with need_do := c1.need_do ++ [m] }
  else { c1 with others := c1.others ++ [m] }

/-- `MedalService.classify_medals` (src/src/services.py lines 121-151). -/
def classify_medals (medals : List MedalItem) : Classified :=
  medals.foldl classifyStep ⟨[], [], [], []⟩

/-- C4: membership in the filtered medal list is exactly: the item occurs in
the raw listing, has a nonzero room, and — when the allow-list is the sentinel
`[0]` — its owner is not in the deny-list, while otherwise its owner is in the
allow-list, the deny-list playing no role. -/
theorem C4_filter_membership (white_list banned_list : List Int)
    (raw : List MedalItem) (m : MedalItem) :
    m ∈ get_all_medals white_list banned_list raw ↔
      m ∈ raw ∧ m.room_info.room_id ≠ 0 ∧
        (if white_list = [0] then m.medal.target_id ∉ banned_list
         else m.medal.target_id ∈ white_list) := by
  induction raw with
  | nil => simp [get_all_medals]
  | cons a rest ih =>
    by_cases h0 : a.room_info.room_id = 0
    · rw [show get_all_medals white_list banned_list (a :: rest)
            = get_all_medals white_list banned_list rest by
          simp [get_all_medals, h0]]
      rw [ih]
      constructor
      · rintro ⟨hmem, hroom, hmode⟩
        exact ⟨List.mem_cons_of_mem a hmem, hroom, hmode⟩
      · rintro ⟨hmem, hroom, hmode⟩
        rcases List.mem_cons.mp hmem with heq | hmem2
        · exact absurd (heq ▸ h0) hroom
        · exact ⟨hmem2, hroom, hmode⟩
    · by_cases hw : white_list = [0]
      · by_cases hb : a.medal.target_id ∈ banned_list
        · rw [show get_all_medals white_list banned_list (a :: rest)
                = get_all_medals white_list banned_list rest by
              simp [get_all_medals, h0, hw, hb]]
          rw [ih]
          constructor
          · rintro ⟨hmem, hroom, hmode⟩
            exact ⟨List.mem_cons_of_mem a hmem, hroom, hmode⟩
          · rintro ⟨hmem, hroom, hmode⟩
            rcases List.mem_cons.mp hmem with heq | hmem2
            · rw [if_pos hw] at hmode
              exact absurd (heq ▸ hb) hmode
            · exact ⟨hmem2, hroom, hmode⟩
        · rw [show get_all_medals white_list banned_list (a :: rest)
                = a :: get_all_medals white_list banned_list rest by
              simp [get_all_medals, h0, hw, hb]]
          rw [List.mem_cons, ih]
          constructor
          · rintro (heq | ⟨hmem, hroom, hmode⟩)
            · exact ⟨heq ▸ List.mem_cons_self a rest, by rw [heq]; exact h0,
                by rw [if_pos hw, heq]; exact hb⟩
            · exact ⟨List.mem_cons_of_mem a hmem, hroom, hmode⟩
          · rintro ⟨hmem, hroom, hmode⟩
            rcases List.mem_cons.mp hmem with heq | hmem2
            · exact Or.inl heq
            · exact Or.inr ⟨hmem2, hroom, hmode⟩
      · by_cases hwm : a.medal.target_id ∈ white_list
        · rw [show get_all_medals white_list banned_list (a :: rest)
                = a :: get_all_medals white_list banned_list rest by
              simp [get_all_medals, h0, hw, hwm]]
          rw [List.mem_cons, ih]
          constructor
          · rintro (heq | ⟨hmem, hroom, hmode⟩)
            · exact ⟨heq ▸ List.mem_cons_self a rest, by rw [heq]; exact h0,
                by rw [if_neg hw, heq]; exact hwm⟩
            · exact ⟨List.mem_cons_of_mem a hmem, hroom, hmode⟩
          · rintro ⟨hmem, hroom, hmode⟩
            rcases List.mem_cons.mp hmem with heq | hmem2
            · exact Or.inl heq
            · exact Or.inr ⟨hmem2, hroom, hmode⟩
        · rw [show get_all_medals white_list banned_list (a :: rest)
                = get_all_medals white_list banned_list rest by
              simp [get_all_medals, h0, hw, hwm]]
          rw [ih]
          constructor
          · rintro ⟨hmem, hroom, hmode⟩
            exact ⟨List.mem_cons_of_mem a hmem, hroom, hmode⟩
          · rintro ⟨hmem, hroom, hmode⟩
            rcases List.mem_cons.mp hmem with heq | hmem2
            · rw [if_neg hw] at hmode
              subst heq
              exact absurd hmode hwm
            · exact ⟨hmem2, hroom, hmode⟩

/-- Prefix test on character lists. -/
def listIsPrefix : List Char → List Char → Bool
| [], _ => true
| _ :: _, [] => false
| a :: as, b :: bs => if a = b then listIsPrefix as bs else false

/-- Infix test on character lists: the first list occurs contiguously in the
second. -/
def listIsInfix (sub : List Char) : List Char → Bool
| [] => listIsPrefix sub []
| b :: rest => listIsPrefix sub (b :: rest) || listIsInfix sub rest

/-- Boolean substring test, used to model the `in` checks that the Python code
performs on human-readable strings. -/
def containsSub (s sub : String) : Bool := listIsInfix sub.toList s.toList

/-- The three name buckets built by `StatsService.calculate_medal_stats`. -/
structure MedalStats where
  full : List String
  low : List String
  unlit : List String
deriving DecidableEq

/-- One step of the statistics loop (src/src/stats_service.py lines 30-42):
an unlit medal contributes its anchor name to `unlit`; independently the name
goes to `full` when `today_feed >= 30` and to `low` otherwise. -/
def statsStep (st : MedalStats) (m : MedalItem) : MedalStats :=
  let st1 :=
    if m.medal.is_lighted = 0 then { st with unlit := st.unlit ++ [m.anchor_info.nick_name] }
    else st
  if 30 ≤ m.medal.today_feed then { st1 with full := st1.full ++ [m.anchor_info.nick_name] }
  else { st1 with low := st1.low ++ [m.anchor_info.nick_name] }

/-- `StatsService.calculate_medal_stats` (src/src/stats_service.py lines 22-44). -/
def calculate_medal_stats (medals : List MedalItem) : MedalStats :=
  medals.foldl statsStep ⟨[], [], []⟩

/-- Names shown for one bucket: the first five joined by spaces, with a
trailing marker when more were omitted (src/src/stats_service.py lines 59-61). -/
def displayNames (names : List String) : String :=
  let d := String.intercalate " " (names.take 5)
  if 5 < names.length then d ++ "等" else d

/-- The report line of one non-empty bucket (src/src/stats_service.py line 62). -/
def groupLine (label : String) (names : List String) : List String :=
  if names = [] then []
  else [label ++ displayNames names ++ " " ++ toString names.length ++ "个"]

/-- `StatsService.generate_report_messages` (src/src/stats_service.py
lines 46-64): a header followed by one line per non-empty bucket, in the fixed
order full, low, unlit. -/
def generate_report_messages (user_name : String) (stats : MedalStats) : List String :=
  ("【" ++ user_name ++ "】 今日亲密度获取情况如下：")
    :: (groupLine "【30】" stats.full
        ++ groupLine "【30以下】" stats.low
        ++ groupLine "【未点亮】" stats.unlit)

/-- Owner A of the end-to-end scenario: today-score 40, lit, room live. -/
def medalA : MedalItem := ⟨⟨1, 1, 20, 40, 11⟩, ⟨101, 1⟩, ⟨"AnchorA"⟩⟩

/-- Owner B of the end-to-end scenario: today-score 10, unlit, room not live. -/
def medalB : MedalItem := ⟨⟨2, 0, 5, 10, 12⟩, ⟨102, 0⟩, ⟨"AnchorB"⟩⟩

/-- Owner C of the end-to-end scenario: room ID 0. -/
def medalC : MedalItem := ⟨⟨3, 0, 5, 0, 13⟩, ⟨0, 0⟩, ⟨"AnchorC"⟩⟩

/-- The raw three-medal listing of the end-to-end scenario. -/
def scenarioMedals : List MedalItem := [medalA, medalB, medalC]

/-- Scenario classification: the pipeline of one account with no allow/deny
configuration (both lists parse to the sentinel `[0]`), as run by
`BiliUser.get_medals`. -/
def scenarioClassified : Classified := classify_medals (get_all_medals [0] [0] scenarioMedals)

/-- Scenario report: `StatsService` applied to the account's `medals` list,
which `BiliUser.get_medals` (src/src/user.py line 131) sets to
`need_do ++ others`. -/
def scenarioReport : List String :=
  generate_report_messages "tester"
    (calculate_medal_stats (scenarioClassified.need_do ++ scenarioClassified.others))

/-- Counterexample to C3 as stated: in the scenario the `live` bucket does not
contain owner A — `classify_medals` puts only unlit medals into the liveness
buckets (src/src/services.py lines 139-143), and A's medal is lit. -/
theorem C3_counterexample : ¬ (scenarioClassified.living = [medalA]) := by decide

/-- C3 amended: in the scenario the classifier yields needsEngagement = {B},
satisfied = {A}, live = {} (A is lit, so it enters no liveness bucket) and
notLive = {B}; C is excluded from every bucket; the report mentions A in the
at-least-30 group and B in the below-30 group, and never mentions C. -/
theorem C3_scenario_buckets_and_report :
    scenarioClassified.need_do = [medalB]
    ∧ scenarioClassified.others = [medalA]
    ∧ scenarioClassified.living = []
    ∧ scenarioClassified.no_living = [medalB]
    ∧ medalC ∉ scenarioClassified.need_do ∧ medalC ∉ scenarioClassified.others
    ∧ medalC ∉ scenarioClassified.living ∧ medalC ∉ scenarioClassified.no_living
    ∧ ("【30】AnchorA 1个" ∈ scenarioReport)
    ∧ ("【30以下】AnchorB 1个" ∈ scenarioReport)
    ∧ scenarioReport.any (fun s => containsSub s "AnchorC") = false := by decide

/-- C6: classification is a deterministic pure function of the medal snapshot —
classifying the same unchanged snapshot twice yields identical buckets. -/
theorem C6_classify_idempotent (snapshot1 snapshot2 : List MedalItem)
    (h : snapshot1 = snapshot2) :
    classify_medals snapshot1 = classify_medals snapshot2 := by rw [h]

/-- Witness for C6 at the concrete scenario snapshot. -/
theorem C6_classify_idempotent_witness :
    scenarioMedals = scenarioMedals
    ∧ classify_medals scenarioMedals = classify_medals scenarioMedals :=
  ⟨rfl, C6_classify_idempotent scenarioMedals scenarioMedals rfl⟩

/-- Split on commas, keeping empty components, as Python str.split does. -/
def splitOnCommaAux : List Char → List Char → List String
| acc, [] => [String.mk acc.reverse]
| acc, c :: rest =>
  if c = ',' then String.mk acc.reverse :: splitOnCommaAux [] rest
  else splitOnCommaAux (c :: acc) rest

/-- Split a string on commas: the empty string yields one empty component. -/
def splitOnComma (s : String) : List String := splitOnCommaAux [] s.toList

/-- Value of one decimal digit character, none for a non-digit. -/
def digitVal (c : Char) : Option Nat :=
  if '0' ≤ c ∧ c ≤ '9' then some (c.toNat - Char.toNat '0') else none

/-- Accumulating decimal parse over a character list. -/
def parseNatAux : List Char → Nat → Option Nat
| [], acc => some acc
| c :: rest, acc =>
  match digitVal c with
  | some d => parseNatAux rest (acc * 10 + d)
  | none => none

/-- Integer parse of a non-empty decimal string with optional leading minus,
modelling the `int()` conversion of a uid component; none on failure,
corresponding to the ValueError path. -/
def parseIntStr (s : String) : Option Int :=
  match s.toList with
  | [] => none
  | '-' :: rest =>
    match rest with
    | [] => none
    | _ => (parseNatAux rest 0).map (fun n => -(n : Int))
  | l => (parseNatAux l 0).map (fun n => (n : Int))

/-- Parse of one allow/deny configuration string by `BiliUser._parse_uid_lists`
(src/src/user.py lines 66-74): split on commas, an empty component becomes 0,
a non-numeric component raises ValueError (modelled as none). -/
def parse_uid_list (s : String) : Option (List Int) :=
  (splitOnComma s).mapM (fun x => if x = "" then some (0 : Int) else parseIntStr x)

/-- C9: an account whose allow-list configuration string is empty parses it to
the sentinel `[0]`, and medal filtering with the parsed list is identical to
filtering with an explicitly configured sentinel, i.e. deny-list mode. -/
theorem C9_empty_allow_string_is_sentinel :
    parse_uid_list "" = some [0]
    ∧ ∀ (banned_list : List Int) (raw : List MedalItem),
        get_all_medals ((parse_uid_list "").getD []) banned_list raw
          = get_all_medals [0] banned_list raw := by
  exact ⟨rfl, fun _ _ => rfl⟩

/-- One candidate video of the per-owner content discovery: its content ID as
reported by the listing (the `param`/`aid` field, absent for a malformed item)
and the already-spent count reported by the spend-status query. -/
structure DiscVideo where
  aid : Option Nat
  already : Nat
deriving DecidableEq

/-- Inner scan of one listing page (src/src/services.py lines 508-522): skip
items without a content ID, collect items whose spend level is below the
platform maximum 2, and stop once `target` items have been collected. -/
def scanPage (target : Nat) : List DiscVideo → List DiscVideo → List DiscVideo
| acc, [] => acc
| acc, v :: rest =>
  match v.aid with
  | none => scanPage target acc rest
  | some _ =>
    if v.already < 2 then
      let acc1 := acc ++ [v]
      if target ≤ acc1.length then acc1 else scanPage target acc1 rest
    else scanPage target acc rest

/-- Pagination loop of `CoinService._get_videos_from_uid`
(src/src/services.py lines 489-533): fetch pages while fewer than `target`
eligible items were found and fewer than `maxPages` pages were fetched,
stopping early on an empty page. -/
def pagesLoop (target maxPages : Nat) : Nat → List (List DiscVideo) → List DiscVideo → List DiscVideo
| _, [], acc => acc
| page, p :: rest, acc =>
  if target ≤ acc.length ∨ maxPages ≤ page then acc
  else if p = [] then acc
  else pagesLoop target maxPages (page + 1) rest (scanPage target acc p)

/-- `CoinService._get_videos_from_uid` (src/src/services.py lines 465-539),
determinized by the page script: the discovery target is `coin_max_per_uid`
when positive, else 5; at most 5 pages are fetched and the result is truncated
to the target. -/
def get_videos_from_uid (coin_max_per_uid : Nat) (pages : List (List DiscVideo)) : List DiscVideo :=
  let target := if 0 < coin_max_per_uid then coin_max_per_uid else 5
  (pagesLoop target 5 0 pages []).take target

/-- Eligibility predicate for discovered videos. -/
def eligibleVideo (v : DiscVideo) : Prop := v.already < 2 ∧ v.aid ≠ none

theorem scanPage_eligible (target : Nat) :
    ∀ (p acc : List DiscVideo), (∀ v ∈ acc, eligibleVideo v) →
      ∀ v ∈ scanPage target acc p, eligibleVideo v := by
  intro p
  induction p with
  | nil => intro acc hacc v hv; exact hacc v hv
  | cons a rest ih =>
    intro acc hacc v hv
    rw [scanPage] at hv
    rcases haid : a.aid with _ | x
    · rw [haid] at hv
      exact ih acc hacc v hv
    · rw [haid] at hv
      by_cases hlt : a.already < 2
      · rw [if_pos hlt] at hv
        have hacc1 : ∀ w ∈ acc ++ [a], eligibleVideo w := by
          intro w hw
          rcases List.mem_append.mp hw with hw1 | hw2
          · exact hacc w hw1
          · rcases List.mem_singleton.mp hw2 with rfl
            exact ⟨hlt, by rw [haid]; exact Option.some_ne_none x⟩
        by_cases hfull : target ≤ (acc ++ [a]).length
        · rw [if_pos hfull] at hv
          exact hacc1 v hv
        · rw [if_neg hfull] at hv
          exact ih (acc ++ [a]) hacc1 v hv
      · rw [if_neg hlt] at hv
        exact ih acc hacc v hv

theorem pagesLoop_eligible (target maxPages : Nat) :
    ∀ (pages : List (List DiscVideo)) (page : Nat) (acc : List DiscVideo),
      (∀ v ∈ acc, eligibleVideo v) →
      ∀ v ∈ pagesLoop target maxPages page pages acc, eligibleVideo v := by
  intro pages
  induction pages with
  | nil => intro page acc hacc v hv; exact hacc v hv
  | cons p rest ih =>
    intro page acc hacc v hv
    rw [pagesLoop] at hv
    by_cases hstop : target ≤ acc.length ∨ maxPages ≤ page
    · rw [if_pos hstop] at hv
      exact hacc v hv
    · rw [if_neg hstop] at hv
      by_cases hp : p = []
      · rw [if_pos hp] at hv
        exact hacc v hv
      · rw [if_neg hp] at hv
        exact ih (page + 1) (scanPage target acc p) (scanPage_eligible target p acc hacc) v hv

/-- C10: per-owner content discovery always returns a bounded list — at most
`coin_max_per_uid` videos when that cap is positive, at most 5 when it is
unset (0) — and every returned video is eligible: spend level below the
platform maximum 2 and a present content ID. -/
theorem C10_discovery_bounded (coin_max_per_uid : Nat) (pages : List (List DiscVideo)) :
    (get_videos_from_uid coin_max_per_uid pages).length
      ≤ (if 0 < coin_max_per_uid then coin_max_per_uid else 5)
    ∧ ∀ v ∈ get_videos_from_uid coin_max_per_uid pages, v.already < 2 ∧ v.aid ≠ none := by
  constructor
  · exact List.length_take_le _ _
  · intro v hv
    have hmem : v ∈ pagesLoop (if 0 < coin_max_per_uid then coin_max_per_uid else 5) 5 0 pages [] :=
      List.mem_of_mem_take hv
    exact pagesLoop_eligible _ 5 pages 0 [] (by intro w hw; cases hw) v hmem

/-- One candidate video of the allocation run: its owner (`_coin_uid`), its
content ID, the spend level reported by the spend-status query, and its
title. -/
structure CoinVideo where
  uid : Nat
  aid : Option Nat
  already : Nat
  title : String
deriving DecidableEq

/-- Lookup with default 0 in the per-owner spend dictionary
(`uid_coin_count.get(uid, 0)`). -/
def getCount : List (Nat × Nat) → Nat → Nat
| [], _ => 0
| (u, k) :: rest, x => if u = x then k else getCount rest x

/-- Add `k` to an owner's entry of the per-owner spend dictionary, creating the
entry when absent. -/
def addCount : List (Nat × Nat) → Nat → Nat → List (Nat × Nat)
| [], u, k => [(u, k)]
| (a, b) :: rest, u, k =>
  if a = u then (a, b + k) :: rest else (a, b) :: addCount rest u k

/-- Mutable state of `CoinService._coin_videos`: total spend applied, the
per-owner spend dictionary, and a log of every applied spend as
(owner, already-spent, amount). -/
structure CoinRunState where
  success_count : Nat
  uid_coin_count : List (Nat × Nat)
  spendLog : List (Nat × Nat × Nat)
deriving DecidableEq

/-- Append a video to its owner's group, preserving first-occurrence order,
as insertion into the Python dict `videos_by_uid` does. -/
def insertGroup : List (Nat × List CoinVideo) → CoinVideo → List (Nat × List CoinVideo)
| [], v => [(v.uid, [v])]
| (u, vs) :: rest, v =>
  if u = v.uid then (u, vs ++ [v]) :: rest else (u, vs) :: insertGroup rest v

/-- Grouping of the candidate list by owner (src/src/services.py
lines 609-614), preserving the order in which owners are first seen. -/
def videos_by_uid (videos : List CoinVideo) : List (Nat × List CoinVideo) :=
  videos.foldl insertGroup []

/-- Inner loop of `CoinService._coin_videos` over one owner's videos
(src/src/services.py lines 626-690): stop when the global budget is spent or —
with a positive per-owner cap and a real owner — when the owner's cap is
reached; skip videos without content ID or already at the platform maximum 2;
otherwise spend the minimum of the platform headroom, the remaining global
budget and (when capped) the remaining owner budget. -/
def coinGroupLoop (maxc cap uid : Nat) : List CoinVideo → CoinRunState → CoinRunState
| [], st => st
| v :: rest, st =>
  if maxc ≤ st.success_count then st
  else if 0 < cap ∧ 0 < uid ∧ cap ≤ getCount st.uid_coin_count uid then st
  else if v.aid = none then coinGroupLoop maxc cap uid rest st
  else if 2 ≤ v.already then coinGroupLoop maxc cap uid rest st
  else
    let c1 := min (2 - v.already) (maxc - st.success_count)
    let c2 := if 0 < cap ∧ 0 < uid then min c1 (cap - getCount st.uid_coin_count uid) else c1
    if c2 = 0 then coinGroupLoop maxc cap uid rest st
    else
      coinGroupLoop maxc cap uid rest
        ⟨st.success_count + c2,
         if 0 < uid then addCount st.uid_coin_count uid c2 else st.uid_coin_count,
         st.spendLog ++ [(uid, v.already, c2)]⟩

/-- Outer loop of `CoinService._coin_videos` over the owner groups
(src/src/services.py lines 617-690). -/
def coinOuterLoop (maxc cap : Nat) : List (Nat × List CoinVideo) → CoinRunState → CoinRunState
| [], st => st
| (u, vs) :: rest, st =>
  if maxc ≤ st.success_count then st
  else coinOuterLoop maxc cap rest (coinGroupLoop maxc cap u vs st)

/-- `CoinService._coin_videos` (src/src/services.py lines 602-698), starting
from an empty run state. -/
def coin_videos_run (videos : List CoinVideo) (maxc cap : Nat) : CoinRunState :=
  coinOuterLoop maxc cap (videos_by_uid videos) ⟨0, [], []⟩

/-- Spendable-budget computation of `CoinService.coin_videos`
(src/src/services.py lines 399-404): balance minus reserve, capped by the
global ceiling when that is positive. -/
def compute_max_coins (total_coins coin_remain coin_max : Nat) : Nat :=
  let available := total_coins - coin_remain
  if 0 < coin_max then min available coin_max else available

/-- Run-state invariant of the allocation loop: the total spend respects the
global budget, every real owner respects a positive per-owner cap, and every
logged spend respects the platform headroom of its item. -/
def CoinInv (maxc cap : Nat) (st : CoinRunState) : Prop :=
  st.success_count ≤ maxc
  ∧ (0 < cap → ∀ u, 0 < u → getCount st.uid_coin_count u ≤ cap)
  ∧ ∀ e ∈ st.spendLog, e.2.2 ≤ 2 - e.2.1

theorem getCount_addCount (u k : Nat) :
    ∀ (c : List (Nat × Nat)) (x : Nat),
      getCount (addCount c u k) x = if x = u then getCount c x + k else getCount c x := by
  intro c
  induction c with
  | nil =>
    intro x
    by_cases h : x = u
    · subst h
      simp [addCount, getCount]
    · simp [addCount, getCount, h, Ne.symm h]
  | cons p rest ih =>
    intro x
    obtain ⟨a, b⟩ := p
    by_cases hau : a = u
    · subst hau
      by_cases hx : a = x
      · subst hx
        simp [addCount, getCount]
      · simp [addCount, getCount, hx, Ne.symm hx]
    · by_cases hx : a = x
      · subst hx
        simp [addCount, getCount, hau, Ne.symm hau]
      · simp [addCount, getCount, hau, hx, ih]

theorem coinGroupLoop_inv (maxc cap uid : Nat) :
    ∀ (vs : List CoinVideo) (st : CoinRunState),
      CoinInv maxc cap st → CoinInv maxc cap (coinGroupLoop maxc cap uid vs st) := by
  intro vs
  induction vs with
  | nil => intro st h; exact h
  | cons v rest ih =>
    intro st h
    rw [coinGroupLoop]
    by_cases h1 : maxc ≤ st.success_count
    · rw [if_pos h1]; exact h
    · rw [if_neg h1]
      by_cases h2 : 0 < cap ∧ 0 < uid ∧ cap ≤ getCount st.uid_coin_count uid
      · rw [if_pos h2]; exact h
      · rw [if_neg h2]
        by_cases h3 : v.aid = none
        · rw [if_pos h3]; exact ih st h
        · rw [if_neg h3]
          by_cases h4 : 2 ≤ v.already
          · rw [if_pos h4]; exact ih st h
          · rw [if_neg h4]
            set c1 := min (2 - v.already) (maxc - st.success_count) with hc1
            set c2 := if 0 < cap ∧ 0 < uid
                then min c1 (cap - getCount st.uid_coin_count uid) else c1 with hc2
            by_cases h5 : c2 = 0
            · rw [if_pos h5]; exact ih st h
            · rw [if_neg h5]
              apply ih
              obtain ⟨hsucc, howner, hlog⟩ := h
              have hc2c1 : c2 ≤ c1 := by
                rw [hc2]
                by_cases hcu : 0 < cap ∧ 0 < uid
                · rw [if_pos hcu]; exact min_le_left _ _
                · rw [if_neg hcu]
              have hc1a : c1 ≤ 2 - v.already := min_le_left _ _
              have hc1b : c1 ≤ maxc - st.success_count := min_le_right _ _
              refine ⟨?_, ?_, ?_⟩
              · show st.success_count + c2 ≤ maxc
                omega
              · intro hcap u hu
                show getCount (if 0 < uid then addCount st.uid_coin_count uid c2
                    else st.uid_coin_count) u ≤ cap
                by_cases huid : 0 < uid
                · rw [if_pos huid, getCount_addCount]
                  by_cases hx : u = uid
                  · rw [if_pos hx]
                    subst hx
                    have hlt : getCount st.uid_coin_count u < cap := by
                      by_contra hge
                      exact h2 ⟨hcap, huid, by omega⟩
                    have : c2 ≤ cap - getCount st.uid_coin_count u := by
                      rw [hc2, if_pos ⟨hcap, huid⟩]
                      exact min_le_right _ _
                    omega
                  · rw [if_neg hx]
                    exact howner hcap u hu
                · rw [if_neg huid]
                  exact howner hcap u hu
              · intro e he
                rcases List.mem_append.mp he with he1 | he2
                · exact hlog e he1
                · rcases List.mem_singleton.mp he2 with rfl
                  show c2 ≤ 2 - v.already
                  omega

theorem coinOuterLoop_inv (maxc cap : Nat) :
    ∀ (groups : List (Nat × List CoinVideo)) (st : CoinRunState),
      CoinInv maxc cap st → CoinInv maxc cap (coinOuterLoop maxc cap groups st) := by
  intro groups
  induction groups with
  | nil => intro st h; exact h
  | cons g rest ih =>
    intro st h
    obtain ⟨u, vs⟩ := g
    rw [coinOuterLoop]
    by_cases h1 : maxc ≤ st.success_count
    · rw [if_pos h1]; exact h
    · rw [if_neg h1]
      exact ih _ (coinGroupLoop_inv maxc cap u vs st h)

theorem coin_videos_run_inv (videos : List CoinVideo) (maxc cap : Nat) :
    CoinInv maxc cap (coin_videos_run videos maxc cap) := by
  apply coinOuterLoop_inv
  exact ⟨Nat.zero_le _, fun _ _ _ => Nat.zero_le _, fun e he => absurd he (List.not_mem_nil e)⟩

/-- The two-owner scenario of C5: each owner holds 10 eligible zero-spend
videos, listed owner by owner. -/
def scenarioVideos : List CoinVideo :=
  List.replicate 10 ⟨1, some 11, 0, "v1"⟩ ++ List.replicate 10 ⟨2, some 22, 0, "v2"⟩

/-- C5: in the scenario with balance 100, reserve 10, global ceiling 20 and
per-owner ceiling 5 over two owners of 10 eligible zero-spend videos each, the
total spend is at most 20 (it is 10), neither owner receives more than 5, and
every logged spend is at most 2 minus the item's already-spent count; and in
general the run never exceeds the global budget, never exceeds a positive
per-owner cap for a real owner, and never exceeds an item's platform
headroom. -/
theorem C5_allocation_respects_caps :
    ((coin_videos_run scenarioVideos (compute_max_coins 100 10 20) 5).success_count ≤ 20
     ∧ getCount (coin_videos_run scenarioVideos (compute_max_coins 100 10 20) 5).uid_coin_count 1 ≤ 5
     ∧ getCount (coin_videos_run scenarioVideos (compute_max_coins 100 10 20) 5).uid_coin_count 2 ≤ 5
     ∧ ∀ e ∈ (coin_videos_run scenarioVideos (compute_max_coins 100 10 20) 5).spendLog,
         e.2.2 ≤ 2 - e.2.1)
    ∧ ∀ (videos : List CoinVideo) (maxc cap : Nat),
        (coin_videos_run videos maxc cap).success_count ≤ maxc
        ∧ (0 < cap → ∀ u, 0 < u → getCount (coin_videos_run videos maxc cap).uid_coin_count u ≤ cap)
        ∧ ∀ e ∈ (coin_videos_run videos maxc cap).spendLog, e.2.2 ≤ 2 - e.2.1 := by
  constructor
  · exact ⟨by decide, by decide, by decide, by decide⟩
  · intro videos maxc cap
    exact coin_videos_run_inv videos maxc cap

/-- Witness for C5 at the concrete scenario inputs. -/
theorem C5_allocation_respects_caps_witness :
    (0 < 5 ∧ getCount (coin_videos_run scenarioVideos 20 5).uid_coin_count 1 ≤ 5)
    ∧ ((1, 0, 2) : Nat × Nat × Nat).2.2 ≤ 2 - ((1, 0, 2) : Nat × Nat × Nat).2.1 :=
  ⟨⟨by decide, ((C5_allocation_respects_caps.2 scenarioVideos 20 5).2.1 (by decide)) 1 (by decide)⟩,
   (C5_allocation_respects_caps.2 scenarioVideos 20 5).2.2 (1, 0, 2) (by decide)⟩

/-- Return value of `sendDanmaku` marking a duplicate comment
(src/src/api.py line 201). -/
def dupMark : String := "重复弹幕"

/-- Remote error text fragment identifying a duplicate comment
(src/src/api.py line 200). -/
def dupErrMark : String := "已经发送过"

/-- Determinized outcome of one raw comment-send HTTP exchange: a delivered
comment with its echoed content, a `BiliApiError` raised from the non-zero
status branch, or a network-level failure. -/
inductive DanmakuApiResult where
| sent (content : String)
| apiErr (code : Int) (msg : String)
| netErr (msg : String)
deriving DecidableEq

/-- Error-path result of `BiliApi.sendDanmaku` (src/src/api.py lines 199-224):
a raised `BiliApiError` whose text contains the duplicate fragment is turned
into the normal return `dupMark`; other api errors propagate; any other
exception is wrapped as a code -1 api error.  The error text is the exception
rendering of `BiliApiError` — Modelled from the spec: exceptions.py is not
under src/, and the spec describes the duplicate case as string-matching an
error message, so the rendering is taken to carry the remote message.  The
code-0 resend branch of the source is unreachable here because the only
`BiliApiError` raised in the guarded block always carries a non-zero code. -/
def sendDanmakuOutcome : DanmakuApiResult → Except BiliError String
| .sent c => Except.ok c
| .apiErr code msg =>
  if containsSub msg dupErrMark then Except.ok dupMark
  else Except.error (BiliError.apiError code msg)
| .netErr msg => Except.error (BiliError.apiError (-1) ("弹幕发送异常: " ++ msg))

/-- How the per-target comment loop ended. -/
inductive TargetResult where
| completedAll
| stoppedDuplicate
| stoppedError
| outOfScript
deriving DecidableEq

/-- Inner comment loop over one target
(src/src/services.py lines 248-261): up to `DANMAKU_NUM` send attempts; an
exception stops the loop as a failure, a returned message containing the
duplicate marker stops it as done.  Returns the way the loop ended and the
number of send attempts made; `outOfScript` flags a script shorter than the
execution. -/
def danmakuGo : Nat → List (Except BiliError String) → Nat → TargetResult × Nat
| 0, _, made => (TargetResult.completedAll, made)
| _ + 1, [], made => (TargetResult.outOfScript, made)
| _ + 1, Except.error _ :: _, made => (TargetResult.stoppedError, made + 1)
| n + 1, Except.ok s :: rest, made =>
  if containsSub s dupMark then (TargetResult.stoppedDuplicate, made + 1)
  else danmakuGo n rest (made + 1)

/-- The comment loop over one target, started with zero attempts made. -/
def danmakuTarget (num : Nat) (outs : List (Except BiliError String)) : TargetResult × Nat :=
  danmakuGo num outs 0

/-- One comment-loop target together with the script of its successive
`sendDanmaku` results. -/
structure MedalScript where
  medal : MedalItem
  outcomes : List (Except BiliError String)

/-- Recognizer of a target whose loop completed all attempts; only these
increment the success count of the service (for-else in the source). -/
def isCompleted : TargetResult × Nat → Bool
| (TargetResult.completedAll, _) => true
| _ => false

/-- `DanmakuService.send_danmaku_to_medals` (src/src/services.py
lines 225-266), determinized by the per-target scripts: with a zero comment
cooldown the task is off; otherwise each target runs its own inner loop and
the success count totals the targets that completed all attempts. -/
def send_danmaku_to_medals (cd num : Nat) (targets : List MedalScript) : Nat × List (TargetResult × Nat) :=
  if cd = 0 then (0, [])
  else
    let results := targets.map (fun t => danmakuTarget num t.outcomes)
    ((results.filter isCompleted).length, results)

theorem danmakuGo_duplicate (dupMsg : String) (hdup : containsSub dupMsg dupMark = true)
    (rest : List (Except BiliError String)) :
    ∀ (pres : List String) (n made : Nat),
      (∀ s ∈ pres, containsSub s dupMark = false) →
      pres.length < n →
      danmakuGo n (pres.map Except.ok ++ Except.ok dupMsg :: rest) made
        = (TargetResult.stoppedDuplicate, made + pres.length + 1) := by
  intro pres
  induction pres with
  | nil =>
    intro n made _ hn
    obtain ⟨n1, rfl⟩ : ∃ n1, n = n1 + 1 := ⟨n - 1, by omega⟩
    simp [danmakuGo, hdup]
  | cons p ps ih =>
    intro n made hall hn
    obtain ⟨n1, rfl⟩ : ∃ n1, n = n1 + 1 := ⟨n - 1, by omega⟩
    have hp : containsSub p dupMark = false := hall p (List.mem_cons_self p ps)
    simp only [List.map_cons, List.cons_append, danmakuGo, hp, Bool.false_eq_true, if_false,
      List.append_eq]
    rw [ih n1 (made + 1) (fun s hs => hall s (List.mem_cons_of_mem p hs))
      (by simp only [List.length_cons] at hn; omega)]
    simp only [Prod.mk.injEq, List.length_cons, true_and]
    omega

/-- C7: a send attempt whose raised error text reports the duplicate-comment
condition is returned as the duplicate marker instead of an error; a comment
loop seeing that marker after `k` normal attempts stops that target as
`stoppedDuplicate` — done, not failed — after exactly `k + 1` attempts,
leaving the remaining attempt budget unused; and the service processes each
target independently, so the targets after the stopped one proceed with their
own loops unchanged. -/
theorem C7_duplicate_comment_stops_target :
    (∀ (code : Int) (msg : String), containsSub msg dupErrMark = true →
       sendDanmakuOutcome (DanmakuApiResult.apiErr code msg) = Except.ok dupMark)
    ∧ (∀ (num : Nat) (pres : List String) (dupMsg : String)
         (rest : List (Except BiliError String)),
         (∀ s ∈ pres, containsSub s dupMark = false) →
         containsSub dupMsg dupMark = true →
         pres.length < num →
         danmakuTarget num (pres.map Except.ok ++ Except.ok dupMsg :: rest)
           = (TargetResult.stoppedDuplicate, pres.length + 1))
    ∧ (∀ (cd num : Nat) (pre : List MedalScript) (t : MedalScript) (post : List MedalScript),
         cd ≠ 0 →
         (send_danmaku_to_medals cd num (pre ++ t :: post)).2
           = pre.map (fun x => danmakuTarget num x.outcomes)
             ++ danmakuTarget num t.outcomes
             :: post.map (fun x => danmakuTarget num x.outcomes)) := by
  refine ⟨?_, ?_, ?_⟩
  · intro code msg h
    simp [sendDanmakuOutcome, h]
  · intro num pres dupMsg rest hall hdup hn
    have h := danmakuGo_duplicate dupMsg hdup rest pres num 0 hall hn
    rw [danmakuTarget, h]
    simp
  · intro cd num pre t post hcd
    simp [send_danmaku_to_medals, hcd]

/-- Witness for C7 at concrete inputs: a duplicate-text api error becomes the
duplicate marker; a loop with one normal attempt then the marker stops after
two attempts; a one-target service call maps the target through its loop. -/
theorem C7_duplicate_comment_stops_target_witness :
    (containsSub "已经发送过相同的弹幕" dupErrMark = true
     ∧ sendDanmakuOutcome (DanmakuApiResult.apiErr 11000 "已经发送过相同的弹幕") = Except.ok dupMark)
    ∧ danmakuTarget 10 (["ok1"].map Except.ok ++ Except.ok "重复弹幕" :: [])
        = (TargetResult.stoppedDuplicate, 2)
    ∧ (send_danmaku_to_medals 3 10 ([] ++ (⟨medalB, [Except.ok "重复弹幕"]⟩ : MedalScript) :: [])).2
        = [] ++ danmakuTarget 10 [Except.ok "重复弹幕"] :: [] := by
  refine ⟨⟨by decide, ?_⟩, ?_, ?_⟩
  · exact C7_duplicate_comment_stops_target.1 11000 "已经发送过相同的弹幕" (by decide)
  · exact C7_duplicate_comment_stops_target.2.1 10 ["ok1"] "重复弹幕" [] (by decide) (by decide)
      (by decide)
  · exact C7_duplicate_comment_stops_target.2.2 3 10 [] ⟨medalB, [Except.ok "重复弹幕"]⟩ []
      (by decide)

/-- The aiohttp session as owned by one account: how often it was opened and
closed, and whether it is currently closed (the library's close call is an
idempotent no-op on a closed session). -/
structure SessionState where
  openCalls : Nat
  closeCalls : Nat
  closed : Bool
deriving DecidableEq

/-- One `session.close()` call. -/
def sessionClose (s : SessionState) : SessionState :=
  ⟨s.openCalls, s.closeCalls + 1, true⟩

/-- Session-relevant state of one `BiliUser`. -/
structure UserLifecycle where
  is_login : Bool
  session : SessionState
deriving DecidableEq

/-- `BiliUser.__init__` (src/src/user.py lines 22-64): the session is opened
exactly once, at construction. -/
def mkUser : UserLifecycle := ⟨false, ⟨1, 0, false⟩⟩

/-- `BiliUser.init` (src/src/user.py lines 138-143): login verification sets
`is_login`; on failure the session is closed. -/
def userInit (loginOk : Bool) (u : UserLifecycle) : UserLifecycle :=
  let u1 : UserLifecycle := ⟨loginOk, u.session⟩
  if loginOk then u1 else ⟨false, sessionClose u1.session⟩

/-- `BiliUser.start` (src/src/user.py lines 145-178): returns at once for a
non-logged-in account; task failures are caught per item and gathered with
exceptions returned, so no path of `start` touches the session lifecycle. -/
def userStart (tasksFail : Bool) (u : UserLifecycle) : UserLifecycle :=
  if tasksFail then u else u

/-- `BiliUser.send_msg` (src/src/user.py lines 180-195): both the
non-logged-in early return and the reporting path close the session. -/
def userSendMsg (u : UserLifecycle) : UserLifecycle :=
  if u.is_login = false then ⟨u.is_login, sessionClose u.session⟩
  else ⟨u.is_login, sessionClose u.session⟩

/-- The per-account flow driven by main.py: `init`, then `start`, then
`send_msg`. -/
def userRun (loginOk tasksFail : Bool) : UserLifecycle :=
  userSendMsg (userStart tasksFail (userInit loginOk mkUser))

/-- Counterexample to C8 as stated: on the login-failure path the session
close call is made twice — once by `init` (src/src/user.py line 143) and once
more by the early return of `send_msg` (src/src/user.py line 183) — so that
path does not close the session exactly once. -/
theorem C8_counterexample : ¬ ((userRun false false).session.closeCalls = 1) := by decide

/-- C8 amended: on every exit path the session is opened exactly once at
construction and ends closed, but the close call is made exactly once only on
the logged-in paths; on the login-failure path it is made twice, the second
call being an idempotent no-op on the already-closed session. -/
theorem C8_session_lifecycle (loginOk tasksFail : Bool) :
    (userRun loginOk tasksFail).session.openCalls = 1
    ∧ (userRun loginOk tasksFail).session.closed = true
    ∧ (userRun loginOk tasksFail).session.closeCalls = (if loginOk then 1 else 2) := by
  cases loginOk <;> cases tasksFail <;> decide

/-- One-page discovery script for the C10 witness. -/
def discPages : List (List DiscVideo) := [[⟨some 1, 0⟩, ⟨none, 0⟩, ⟨some 2, 2⟩]]

/-- Witness for C10 at a concrete page script and cap 3. -/
theorem C10_discovery_bounded_witness :
    (get_videos_from_uid 3 discPages).length ≤ (if 0 < 3 then 3 else 5)
    ∧ ((⟨some 1, 0⟩ : DiscVideo).already < 2 ∧ (⟨some 1, 0⟩ : DiscVideo).aid ≠ none) :=
  ⟨(C10_discovery_bounded 3 discPages).1,
   (C10_discovery_bounded 3 discPages).2 ⟨some 1, 0⟩ (by decide)⟩

end FansMedal
